import Mathlib

/-! IBM Terraform provider: two data source read handlers

A shallow embedding of

* `ibm/service/eventnotification/data_source_ibm_en_topics.go`
  (`dataSourceIBMEnTopicsRead`, `enTopicListFlatten`, `enTopicsToMap`), and
* `ibm/service/schematics/data_source_ibm_schematics_agent_health.go`
  (`dataSourceIbmSchematicsAgentHealthRead`).

Go `int64` values are integers wrapped into the signed 64-bit range after every
addition, pointers are `Option`s, Go maps are association lists with replace-on-set,
and the remote SDK clients are functions supplied by the caller.  The unbounded
`for` loop of the topics handler is a fuel-indexed recursion that records every
request it issues.
-/

namespace TerraformIBM

/-! ## Machine integers -/

/-- Largest value of a Go `int64`. -/
def maxInt64 : Int := 9223372036854775807

/-- Result of a Go `int64` addition: the mathematical result wrapped into
the range from `-2^63` to `2^63 - 1`. -/
def wrapInt64 (x : Int) : Int := (x + 9223372036854775808) % 18446744073709551616 - 9223372036854775808

/-! ## Go maps as association lists -/

/-- Assignment `m[k] = v` on a Go map: replaces the entry of `k` or adds one. -/
def mapSet {α : Type} : List (String × α) → String → α → List (String × α)
  | [], k, v => [(k, v)]
  | (k1, v1) :: rest, k, v => if k1 = k then (k, v) :: rest else (k1, v1) :: mapSet rest k v

/-- Lookup `m[k]` on a Go map. -/
def mapGet {α : Type} : List (String × α) → String → Option α
  | [], _ => none
  | (k1, v1) :: rest, k => if k1 = k then some v1 else mapGet rest k

/-! ## Terraform plugin SDK: schema, resource data, diagnostics -/

/-- The `schema.ValueType`s the two data sources declare. -/
inductive ValueType where
  | TypeString
  | TypeInt
  | TypeList
  deriving DecidableEq, Repr

/-- Values stored in the flat map of one topic (`map[string]interface{}`). -/
inductive TopicVal where
  | str (s : String)
  | int (n : Int)
  | strs (l : List String)
  deriving DecidableEq, Repr

/-- One flattened topic. -/
abbrev TopicsMap := List (String × TopicVal)

/-- Values of top-level attributes of a `schema.ResourceData`. -/
inductive AttrVal where
  | str (s : String)
  | int (n : Int)
  | maps (l : List TopicsMap)
  deriving DecidableEq, Repr

/-- The schema type a value can be stored under. -/
def AttrVal.valueType : AttrVal → ValueType
  | .str _ => .TypeString
  | .int _ => .TypeInt
  | .maps _ => .TypeList

/-- The zero value of a schema type. -/
def ValueType.zero : ValueType → AttrVal
  | .TypeString => .str ""
  | .TypeInt => .int 0
  | .TypeList => .maps []

/-- The `Schema` map of a `schema.Resource`: attribute name and type. -/
abbrev Schema := List (String × ValueType)

/-- The part of `schema.ResourceData` the handlers touch: the resource id and
the attribute map. -/
structure ResourceData where
  id : String
  attrs : List (String × AttrVal)
  deriving DecidableEq, Repr

/-- The method `d.SetId`. -/
def ResourceData.SetId (d : ResourceData) (v : String) : ResourceData :=
  { d with id := v }

/-- The method `d.Get(key).(string)` for a `TypeString` attribute: the stored
string, or the zero value when the attribute is unset. -/
def ResourceData.GetString (d : ResourceData) (key : String) : String :=
  match mapGet d.attrs key with
  | some (.str s) => s
  | _ => ""

/-- The method `d.GetOk(key)` for a `TypeString` attribute: the value and whether
it is set to something other than the zero value. -/
def ResourceData.GetOkString (d : ResourceData) (key : String) : String × Bool :=
  (d.GetString key, decide (d.GetString key ≠ ""))

/-- The method `d.State()`: a resource data value with an empty id has no
state; otherwise the state carries the id and the attributes. -/
def ResourceData.State (d : ResourceData) : Option ResourceData :=
  if d.id = "" then none else some d

/-- The method `d.Set(key, value)`: fails on a key the schema does not declare
or on a value of another type than the declared one; a nil pointer (`none`)
stores the zero value of the declared type, so the key is then present with,
for a string, the empty string; otherwise the value is stored. -/
def ResourceData.Set (sch : Schema) (d : ResourceData) (key : String) (value : Option AttrVal) :
    Except String ResourceData :=
  match mapGet sch key with
  | none => .error ("Invalid address to set: " ++ key)
  | some ty =>
    match value with
    | none => .ok { d with attrs := mapSet d.attrs key ty.zero }
    | some v =>
      if v.valueType = ty then .ok { d with attrs := mapSet d.attrs key v }
      else .error (key ++ ": unexpected value type")

/-- The type `diag.Diagnostics` as the handlers build it: nil, `diag.FromErr`,
or the diagnostic of a `flex.TerraformErrorf` problem (error, message, resource,
operation). -/
inductive Diagnostics where
  | nil
  | FromErr (msg : String)
  | TerraformErrorf (err : String) (msg : String) (resource : String) (operation : String)
  deriving DecidableEq, Repr

/-- Whether diagnostics report an error. -/
def Diagnostics.HasError : Diagnostics → Bool
  | .nil => false
  | _ => true

/-! ## Event Notifications SDK types -/

/-- The SDK type `en.TopicsListItem`. -/
structure TopicsListItem where
  ID : Option String
  Name : Option String
  Description : Option String
  SourceCount : Option Int
  SourcesNames : Option (List String)
  SubscriptionCount : Option Int
  deriving DecidableEq, Repr

/-- The SDK type `en.TopicList`. -/
structure TopicList where
  TotalCount : Option Int
  Topics : List TopicsListItem
  deriving DecidableEq, Repr

/-- The SDK type `en.ListTopicsOptions`. -/
structure ListTopicsOptions where
  InstanceID : Option String
  Limit : Option Int
  Offset : Option Int
  Search : Option String
  deriving DecidableEq, Repr

/-- The value `&en.ListTopicsOptions{}`. -/
def ListTopicsOptions.empty : ListTopicsOptions :=
  { InstanceID := none, Limit := none, Offset := none, Search := none }

/-- The setter `options.SetInstanceID`. -/
def ListTopicsOptions.SetInstanceID (o : ListTopicsOptions) (v : String) : ListTopicsOptions :=
  { o with InstanceID := some v }

/-- The setter `options.SetSearch`. -/
def ListTopicsOptions.SetSearch (o : ListTopicsOptions) (v : String) : ListTopicsOptions :=
  { o with Search := some v }

/-- The setter `options.SetLimit`. -/
def ListTopicsOptions.SetLimit (o : ListTopicsOptions) (v : Int) : ListTopicsOptions :=
  { o with Limit := some v }

/-- The setter `options.SetOffset`. -/
def ListTopicsOptions.SetOffset (o : ListTopicsOptions) (v : Int) : ListTopicsOptions :=
  { o with Offset := some v }

/-- The remote operation `enClient.ListTopicsWithContext`: the answer to the
request number `n` (counted from 0) carrying the given options. -/
abbrev EnClient := Nat → ListTopicsOptions → Except String TopicList

/-! ## `data_source_ibm_en_topics.go` -/

/-- The `Schema` of `DataSourceIBMEnTopics`. -/
def DataSourceIBMEnTopics : Schema :=
  [("instance_guid", .TypeString), ("total_count", .TypeInt),
   ("search_key", .TypeString), ("topics", .TypeList)]

/-- The function `enTopicsToMap`. -/
def enTopicsToMap (topicsItem : TopicsListItem) : TopicsMap :=
  let topicsMap : TopicsMap := []
  let topicsMap := match topicsItem.ID with
    | some v => mapSet topicsMap "id" (.str v)
    | none => topicsMap
  let topicsMap := match topicsItem.Name with
    | some v => mapSet topicsMap "name" (.str v)
    | none => topicsMap
  let topicsMap := match topicsItem.Description with
    | some v => mapSet topicsMap "description" (.str v)
    | none => topicsMap
  let topicsMap := match topicsItem.SourceCount with
    | some v => mapSet topicsMap "source_count" (.int v)
    | none => topicsMap
  let topicsMap := match topicsItem.SourcesNames with
    | some v => mapSet topicsMap "sources_names" (.strs v)
    | none => topicsMap
  let topicsMap := match topicsItem.SubscriptionCount with
    | some v => mapSet topicsMap "subscription_count" (.int v)
    | none => topicsMap
  topicsMap

/-- The function `enTopicListFlatten`: the named result starts empty and every
item of the range loop appends its map. -/
def enTopicListFlatten (result : List TopicsListItem) : List TopicsMap :=
  result.foldl (fun topics topicsItem => topics ++ [enTopicsToMap topicsItem]) []

/-- Modelled from the spec: `flex.IntValue` is not in the sources at hand; the
total count written to the state is the count the service reported, and a nil
pointer gives the zero value. -/
def IntValue (v : Option Int) : Int := v.getD 0

/-- How one run of the pagination loop ends. -/
inductive LoopOutcome where
  | failed (err : String)
  | done (topicList : TopicList) (finalList : List TopicsListItem)
  | nilDeref
  | outOfFuel
  deriving DecidableEq, Repr

/-- The `for` loop of `dataSourceIBMEnTopicsRead` (lines 109 to 128), started
at request number `n` with the current `options`, `offset` and `finalList`.
Returns how the loop ends and the options of every request issued, in order.
`nilDeref` is the run-time failure of `*result.TotalCount` on a nil pointer;
`outOfFuel` means the loop is still running after `fuel` requests. -/
def listTopicsLoop (enClient : EnClient) (limit : Int) :
    Nat → Nat → ListTopicsOptions → Int → List TopicsListItem →
      LoopOutcome × List ListTopicsOptions
  | 0, _, _, _, _ => (.outOfFuel, [])
  | fuel + 1, n, options, offset, finalList =>
    let options := options.SetOffset offset
    match enClient n options with
    | .error err => (.failed err, [options])
    | .ok result =>
      let offset := wrapInt64 (offset + limit)
      let finalList := finalList ++ result.Topics
      match result.TotalCount with
      | none => (.nilDeref, [options])
      | some totalCount =>
        if offset > totalCount then (.done result finalList, [options])
        else
          let rest := listTopicsLoop enClient limit fuel (n + 1) options offset finalList
          (rest.1, options :: rest.2)

/-- How one call of a read handler ends. -/
inductive ReadResult where
  | returned (diags : Diagnostics) (d : ResourceData)
  | nilDeref
  | outOfFuel
  deriving DecidableEq, Repr

/-- Lines 93 to 107 of `dataSourceIBMEnTopicsRead`: the options as they stand
when the loop is entered, with the instance id, the search key when one is
configured, and the limit. -/
def listTopicsOptions (d : ResourceData) (limit : Int) : ListTopicsOptions :=
  let options := ListTopicsOptions.empty
  let options := options.SetInstanceID (d.GetString "instance_guid")
  let options :=
    if (d.GetOkString "search_key").2 then options.SetSearch (d.GetString "search_key")
    else options
  options.SetLimit limit

/-- The function `dataSourceIBMEnTopicsRead`.  `session` is the outcome of
`meta.(conns.ClientSession).EventNotificationsApiV1()`.  Returns how the call
ends together with the options of every `ListTopics` request issued. -/
def dataSourceIBMEnTopicsRead (fuel : Nat) (d : ResourceData)
    (session : Except String EnClient) : ReadResult × List ListTopicsOptions :=
  match session with
  | .error err => (.returned (.TerraformErrorf err err "(Data) ibm_en_topics" "list") d, [])
  | .ok enClient =>
    let offset : Int := 0
    let limit : Int := 100
    let options := listTopicsOptions d limit
    match listTopicsLoop enClient limit fuel 0 options offset [] with
    | (.failed err, requests) =>
      (.returned (.TerraformErrorf err ("ListTopicsWithContext failed: " ++ err)
        "(Data) ibm_en_topics" "list") d, requests)
    | (.nilDeref, requests) => (.nilDeref, requests)
    | (.outOfFuel, requests) => (.outOfFuel, requests)
    | (.done result finalList, requests) =>
      let topicList : TopicList := { result with Topics := finalList }
      let d := d.SetId ("topics_" ++ d.GetString "instance_guid")
      match d.Set DataSourceIBMEnTopics "total_count" (some (.int (IntValue topicList.TotalCount))) with
      | .error err =>
        (.returned (.TerraformErrorf err ("Error setting total_count: " ++ err)
          "(Data) ibm_en_topics" "list") d, requests)
      | .ok d =>
        -- `topicList.Topics` is `finalList`, created as a non-nil empty slice and only
        -- appended to, so the nil test of line 139 always succeeds
        match d.Set DataSourceIBMEnTopics "topics" (some (.maps (enTopicListFlatten topicList.Topics))) with
        | .error err =>
          (.returned (.TerraformErrorf err ("Error setting topics: " ++ err)
            "(Data) ibm_en_topics" "list") d, requests)
        | .ok d => (.returned .nil d, requests)

/-! ## Schematics SDK types -/

/-- The type `strfmt.DateTime`, kept as the text its `String` method gives. -/
structure DateTime where
  text : String
  deriving DecidableEq, Repr

/-- The fields of `schematicsv1.AgentDataRecentHealthJob` the handler reads. -/
structure AgentDataRecentHealthJob where
  JobID : Option String
  UpdatedAt : Option DateTime
  UpdatedBy : Option String
  StatusCode : Option String
  StatusMessage : Option String
  LogURL : Option String
  deriving DecidableEq, Repr

/-- The fields of `schematicsv1.AgentData` the handler reads. -/
structure AgentData where
  Version : Option String
  RecentHealthJob : Option AgentDataRecentHealthJob
  deriving DecidableEq, Repr

/-- The type `core.DetailedResponse`: the HTTP status code and the text the
response prints as. -/
structure DetailedResponse where
  StatusCode : Int
  text : String
  deriving DecidableEq, Repr

/-- The `%s` rendering of a possibly nil response in an error message. -/
def responseString : Option DetailedResponse → String
  | some r => r.text
  | none => "null\n"

/-- The SDK type `schematicsv1.GetAgentDataOptions`. -/
structure GetAgentDataOptions where
  AgentID : Option String
  Profile : Option String
  deriving DecidableEq, Repr

/-- The setter `getAgentDataOptions.SetAgentID`. -/
def GetAgentDataOptions.SetAgentID (o : GetAgentDataOptions) (v : String) : GetAgentDataOptions :=
  { o with AgentID := some v }

/-- The three results of `schematicsClient.GetAgentDataWithContext`. -/
structure GetAgentDataResult where
  agentData : Option AgentData
  response : Option DetailedResponse
  err : Option String
  deriving DecidableEq, Repr

/-- The remote operation `schematicsClient.GetAgentDataWithContext`. -/
abbrev SchematicsClient := GetAgentDataOptions → GetAgentDataResult

/-! ## `data_source_ibm_schematics_agent_health.go` -/

/-- The `Schema` of `DataSourceIbmSchematicsAgentHealth`. -/
def DataSourceIbmSchematicsAgentHealth : Schema :=
  [("agent_id", .TypeString), ("job_id", .TypeString), ("updated_at", .TypeString),
   ("updated_by", .TypeString), ("agent_version", .TypeString), ("status_code", .TypeString),
   ("status_message", .TypeString), ("log_url", .TypeString)]

/-- Modelled from the spec: `flex.DateTimeToString` is not in the sources at
hand; a present timestamp is copied as its text and an absent one stays
absent. -/
def DateTimeToString (dt : Option DateTime) : Option String := dt.map (fun t => t.text)

/-- The function `dataSourceIbmSchematicsAgentHealthRead`.  `session` is the
outcome of `meta.(conns.ClientSession).SchematicsV1()`; the helper
`DataSourceIBMSchematicsAgentID`, declared elsewhere in the package, is a
parameter. -/
def dataSourceIbmSchematicsAgentHealthRead (DataSourceIBMSchematicsAgentID : ResourceData → String)
    (d : ResourceData) (session : Except String SchematicsClient) : ReadResult :=
  match session with
  | .error err => .returned (.FromErr err) d
  | .ok schematicsClient =>
    let getAgentDataOptions : GetAgentDataOptions := { AgentID := none, Profile := some "detailed" }
    let getAgentDataOptions := getAgentDataOptions.SetAgentID (d.GetString "agent_id")
    let r := schematicsClient getAgentDataOptions
    match r.err with
    | some err =>
      if (match r.response with
          | some response => decide (response.StatusCode = 404)
          | none => false) then
        .returned .nil (d.SetId (DataSourceIBMSchematicsAgentID d))
      else
        .returned (.FromErr ("GetAgentDataWithContext failed " ++ err ++ "\n" ++
          responseString r.response)) d
    | none =>
      let d := d.SetId (DataSourceIBMSchematicsAgentID d)
      match r.agentData with
      | none => .nilDeref
      | some agentData =>
        match agentData.RecentHealthJob with
        | none => .returned .nil d
        | some job =>
          match d.Set DataSourceIbmSchematicsAgentHealth "agent_id"
              (getAgentDataOptions.AgentID.map .str) with
          | .error err => .returned (.FromErr ("Error setting agent_id: " ++ err)) d
          | .ok d =>
          match d.Set DataSourceIbmSchematicsAgentHealth "job_id" (job.JobID.map .str) with
          | .error err => .returned (.FromErr ("Error setting job_id: " ++ err)) d
          | .ok d =>
          let d := match job.JobID with
            | some jobID => d.SetId jobID
            | none => d
          match d.Set DataSourceIbmSchematicsAgentHealth "updated_at"
              ((DateTimeToString job.UpdatedAt).map .str) with
          | .error err => .returned (.FromErr ("Error setting updated_at: " ++ err)) d
          | .ok d =>
          match d.Set DataSourceIbmSchematicsAgentHealth "updated_by" (job.UpdatedBy.map .str) with
          | .error err => .returned (.FromErr ("Error setting updated_by: " ++ err)) d
          | .ok d =>
          match d.Set DataSourceIbmSchematicsAgentHealth "agent_version"
              (agentData.Version.map .str) with
          | .error err => .returned (.FromErr ("Error setting agent_version: " ++ err)) d
          | .ok d =>
          match d.Set DataSourceIbmSchematicsAgentHealth "status_code"
              (job.StatusCode.map .str) with
          | .error err => .returned (.FromErr ("Error setting status_code: " ++ err)) d
          | .ok d =>
          match d.Set DataSourceIbmSchematicsAgentHealth "status_message"
              (job.StatusMessage.map .str) with
          | .error err => .returned (.FromErr ("Error setting status_message: " ++ err)) d
          | .ok d =>
          match d.Set DataSourceIbmSchematicsAgentHealth "log_url" (job.LogURL.map .str) with
          | .error err => .returned (.FromErr ("Error setting log_url: " ++ err)) d
          | .ok d => .returned .nil d

/-- The attribute map the agent health handler leaves after a response with a
health job: every `d.Set` of lines 94 to 119 applied in order, an absent field
stored as the empty string. -/
def agentHealthAttrs (attrs : List (String × AttrVal)) (agentID : String) (agentData : AgentData)
    (job : AgentDataRecentHealthJob) : List (String × AttrVal) :=
  mapSet (mapSet (mapSet (mapSet (mapSet (mapSet (mapSet (mapSet attrs
    "agent_id" (.str agentID))
    "job_id" (.str (job.JobID.getD "")))
    "updated_at" (.str ((job.UpdatedAt.map (fun t => t.text)).getD "")))
    "updated_by" (.str (job.UpdatedBy.getD "")))
    "agent_version" (.str (agentData.Version.getD "")))
    "status_code" (.str (job.StatusCode.getD "")))
    "status_message" (.str (job.StatusMessage.getD "")))
    "log_url" (.str (job.LogURL.getD ""))

/-! ## Concrete inputs used in the examples -/

/-- A resource data value holding only the configured agent id. -/
def exampleAgentState : ResourceData := ⟨"", [("agent_id", .str "agent-1")]⟩

/-- A stand-in for `DataSourceIBMSchematicsAgentID`. -/
def exampleAgentID : ResourceData → String := fun d => "agent:" ++ d.GetString "agent_id"

/-- A client whose call fails with a 404 response. -/
def notFoundClient : SchematicsClient :=
  fun _ => ⟨none, some ⟨404, "404 Not Found"⟩, some "agent not found"⟩

/-- A client whose call fails with a 500 response. -/
def serverErrorClient : SchematicsClient :=
  fun _ => ⟨none, some ⟨500, "500 Internal Server Error"⟩, some "internal error"⟩

/-- A client whose call succeeds with the given health job. -/
def healthClient (job : AgentDataRecentHealthJob) : SchematicsClient :=
  fun _ => ⟨some ⟨some "1.0.0", some job⟩, some ⟨200, "200 OK"⟩, none⟩

/-- A health job with a job id and some fields absent. -/
def exampleJob : AgentDataRecentHealthJob :=
  ⟨some "job-7", some ⟨"2023-05-01T10:00:00.000Z"⟩, none, some "success", none, some "https://logs/7"⟩

/-- A health job whose job id is the empty string. -/
def jobWithEmptyID : AgentDataRecentHealthJob :=
  ⟨some "", none, some "user@example.com", some "success", none, none⟩

/-- A health job without a job id. -/
def jobWithoutID : AgentDataRecentHealthJob :=
  ⟨none, none, some "user@example.com", some "success", none, none⟩

/-- The request expected at a given offset: the configured instance id, the
limit 100, the offset, and the search key when one is configured. -/
def expectedRequest (d : ResourceData) (offset : Int) : ListTopicsOptions :=
  { InstanceID := some (d.GetString "instance_guid"),
    Limit := some 100,
    Offset := some offset,
    Search := if d.GetString "search_key" = "" then none else some (d.GetString "search_key") }

/-- The resource data expected after a successful read. -/
def expectedTopicsState (d : ResourceData) (totalCount : Int) (topics : List TopicsListItem) :
    ResourceData :=
  { id := "topics_" ++ d.GetString "instance_guid",
    attrs := mapSet (mapSet d.attrs "total_count" (.int totalCount)) "topics"
      (.maps (topics.map enTopicsToMap)) }

/-- A resource data value holding only the configured instance id. -/
def exampleTopicsState : ResourceData := ⟨"", [("instance_guid", .str "abc")]⟩

/-- A topic with the given id. -/
def exampleTopic (id : String) : TopicsListItem :=
  ⟨some id, some "topic", none, some 1, some ["src"], none⟩

/-- A service holding the list `L`: every request succeeds, reports the length
of `L` as total count and carries the records from the requested offset on, 100
at most. -/
def pagedService (L : List TopicsListItem) : EnClient :=
  fun _ options =>
    .ok { TotalCount := some (L.length : Int),
          Topics := (L.drop (options.Offset.getD 0).toNat).take 100 }

/-- A service whose every response succeeds, carries no topic and reports the
largest `int64` as total count. -/
def maxTotalClient : EnClient :=
  fun _ _ => .ok { TotalCount := some maxInt64, Topics := [] }

/-- A service whose first response succeeds with one topic and a total count
of 250 and whose later responses fail. -/
def failingSecondClient : EnClient :=
  fun n _ => if n = 0 then .ok { TotalCount := some 250, Topics := [exampleTopic "t0"] }
    else .error "connection reset"

/-- A service whose every response reports a total count of 0 and carries one
topic. -/
def zeroTotalClient : EnClient :=
  fun _ _ => .ok { TotalCount := some 0, Topics := [exampleTopic "t0"] }

/-! ## Lemmas on Go maps -/

theorem mapGet_mapSet {α : Type} (m : List (String × α)) (k : String) (v : α) (k2 : String) :
    mapGet (mapSet m k v) k2 = if k = k2 then some v else mapGet m k2 := by
  induction m with
  | nil => simp [mapSet, mapGet]
  | cons e rest ih =>
    obtain ⟨k1, v1⟩ := e
    by_cases h : k1 = k
    · subst h
      by_cases h2 : k1 = k2 <;> simp [mapSet, mapGet, h2]
    · by_cases h2 : k1 = k2
      · subst h2
        have h3 : ¬ k = k1 := fun e => h e.symm
        simp [mapSet, mapGet, h, h3]
      · simp [mapSet, mapGet, h, h2, ih]

/-! ## Flattening -/

theorem enTopicListFlatten_foldl (result : List TopicsListItem) (acc : List TopicsMap) :
    result.foldl (fun topics topicsItem => topics ++ [enTopicsToMap topicsItem]) acc
      = acc ++ result.map enTopicsToMap := by
  induction result generalizing acc with
  | nil => simp
  | cons x xs ih => simp [ih]

theorem enTopicListFlatten_eq_map (result : List TopicsListItem) :
    enTopicListFlatten result = result.map enTopicsToMap := by
  simp [enTopicListFlatten, enTopicListFlatten_foldl]

/-- C7: the map built by `enTopicsToMap` holds each of the six keys exactly when
the matching field of the item is set, with that field's value (the source names
as the same list), and holds no other key. -/
theorem enTopicsToMap_keys (t : TopicsListItem) :
    mapGet (enTopicsToMap t) "id" = t.ID.map TopicVal.str ∧
    mapGet (enTopicsToMap t) "name" = t.Name.map TopicVal.str ∧
    mapGet (enTopicsToMap t) "description" = t.Description.map TopicVal.str ∧
    mapGet (enTopicsToMap t) "source_count" = t.SourceCount.map TopicVal.int ∧
    mapGet (enTopicsToMap t) "sources_names" = t.SourcesNames.map TopicVal.strs ∧
    mapGet (enTopicsToMap t) "subscription_count" = t.SubscriptionCount.map TopicVal.int ∧
    (∀ k, k ∉ ["id", "name", "description", "source_count", "sources_names",
        "subscription_count"] → mapGet (enTopicsToMap t) k = none) ∧
    ((enTopicsToMap t).map Prod.fst).Nodup := by
  obtain ⟨a, b, c, e, f, g⟩ := t
  refine ⟨?_, ?_, ?_, ?_, ?_, ?_, ?_, ?_⟩
  · cases a <;> cases b <;> cases c <;> cases e <;> cases f <;> cases g <;>
      simp [enTopicsToMap, mapGet_mapSet, mapGet]
  · cases a <;> cases b <;> cases c <;> cases e <;> cases f <;> cases g <;>
      simp [enTopicsToMap, mapGet_mapSet, mapGet]
  · cases a <;> cases b <;> cases c <;> cases e <;> cases f <;> cases g <;>
      simp [enTopicsToMap, mapGet_mapSet, mapGet]
  · cases a <;> cases b <;> cases c <;> cases e <;> cases f <;> cases g <;>
      simp [enTopicsToMap, mapGet_mapSet, mapGet]
  · cases a <;> cases b <;> cases c <;> cases e <;> cases f <;> cases g <;>
      simp [enTopicsToMap, mapGet_mapSet, mapGet]
  · cases a <;> cases b <;> cases c <;> cases e <;> cases f <;> cases g <;>
      simp [enTopicsToMap, mapGet_mapSet, mapGet]
  · intro k hk
    simp only [List.mem_cons, List.mem_singleton, List.not_mem_nil, or_false, not_or] at hk
    obtain ⟨h1, h2, h3, h4, h5, h6⟩ := hk
    cases a <;> cases b <;> cases c <;> cases e <;> cases f <;> cases g <;>
      simp [enTopicsToMap, mapGet_mapSet, mapGet, Ne.symm h1, Ne.symm h2, Ne.symm h3,
        Ne.symm h4, Ne.symm h5, Ne.symm h6]
  · cases a <;> cases b <;> cases c <;> cases e <;> cases f <;> cases g <;>
      simp [enTopicsToMap, mapSet]

/-- C8: `enTopicListFlatten` returns a list as long as its input whose element
at every position is `enTopicsToMap` of the input item at that position. -/
theorem enTopicListFlatten_pointwise (result : List TopicsListItem) :
    (enTopicListFlatten result).length = result.length ∧
    ∀ i : Nat, (enTopicListFlatten result)[i]? = (result[i]?).map enTopicsToMap := by
  rw [enTopicListFlatten_eq_map]
  simp

/-! ## Agent health -/

theorem Set_ok (sch : Schema) (d : ResourceData) (key : String) (v : Option AttrVal)
    (ty : ValueType) (hk : mapGet sch key = some ty) (hv : ∀ x, v = some x → x.valueType = ty) :
    d.Set sch key v = .ok ⟨d.id, mapSet d.attrs key (v.getD ty.zero)⟩ := by
  cases v with
  | none => simp [ResourceData.Set, hk]
  | some x => simp [ResourceData.Set, hk, hv x rfl]

theorem Set_string_ok (sch : Schema) (d : ResourceData) (key : String) (v : Option String)
    (hk : mapGet sch key = some ValueType.TypeString) :
    d.Set sch key (v.map AttrVal.str) = .ok ⟨d.id, mapSet d.attrs key (.str (v.getD ""))⟩ := by
  cases v with
  | none => simp [ResourceData.Set, hk, ValueType.zero]
  | some x => simp [ResourceData.Set, hk, AttrVal.valueType]

theorem agentHealthRead_job (agentID : ResourceData → String) (d : ResourceData)
    (client : SchematicsClient) (agentData : AgentData) (job : AgentDataRecentHealthJob)
    (herr : (client ⟨some (d.GetString "agent_id"), some "detailed"⟩).err = none)
    (hdata : (client ⟨some (d.GetString "agent_id"), some "detailed"⟩).agentData = some agentData)
    (hjob : agentData.RecentHealthJob = some job) :
    dataSourceIbmSchematicsAgentHealthRead agentID d (.ok client) =
      .returned .nil ⟨job.JobID.getD (agentID d),
        agentHealthAttrs d.attrs (d.GetString "agent_id") agentData job⟩ := by
  have hs : ∀ key, key ∈ ["agent_id", "job_id", "updated_at", "updated_by", "agent_version",
      "status_code", "status_message", "log_url"] →
      mapGet DataSourceIbmSchematicsAgentHealth key = some ValueType.TypeString := by
    intro key hkey
    simp only [List.mem_cons, List.mem_singleton, List.not_mem_nil, or_false] at hkey
    rcases hkey with h | h | h | h | h | h | h | h <;> subst h <;> rfl
  have e : ∀ (x : ResourceData) (key : String) (v : Option String),
      key ∈ ["agent_id", "job_id", "updated_at", "updated_by", "agent_version",
        "status_code", "status_message", "log_url"] →
      x.Set DataSourceIbmSchematicsAgentHealth key (v.map AttrVal.str) =
        .ok ⟨x.id, mapSet x.attrs key (.str (v.getD ""))⟩ :=
    fun x key v hkey => Set_string_ok _ x key v (hs key hkey)
  unfold dataSourceIbmSchematicsAgentHealthRead
  simp only [GetAgentDataOptions.SetAgentID, herr, hdata, hjob]
  simp only [e _ "agent_id" _ (by simp), e _ "job_id" _ (by simp), e _ "updated_at" _ (by simp), e _ "updated_by" _ (by simp),
    e _ "agent_version" _ (by simp), e _ "status_code" _ (by simp),
    e _ "status_message" _ (by simp), e _ "log_url" _ (by simp)]
  cases hj : job.JobID <;> simp [ResourceData.SetId, agentHealthAttrs, hj, DateTimeToString]

/-- C4: when `GetAgentData` fails with a 404 response the handler returns no
error, sets the resource id, and leaves every attribute as it was, so no health
attribute is written. -/
theorem agentHealthRead_notFound (agentID : ResourceData → String) (d : ResourceData)
    (client : SchematicsClient) (err : String) (response : DetailedResponse)
    (herr : (client ⟨some (d.GetString "agent_id"), some "detailed"⟩).err = some err)
    (hresp : (client ⟨some (d.GetString "agent_id"), some "detailed"⟩).response = some response)
    (h404 : response.StatusCode = 404) :
    dataSourceIbmSchematicsAgentHealthRead agentID d (.ok client) =
      .returned .nil ⟨agentID d, d.attrs⟩ ∧
    ∀ key ∈ ["job_id", "updated_at", "updated_by", "agent_version", "status_code",
        "status_message", "log_url"],
      mapGet d.attrs key = none →
      ∃ d2, dataSourceIbmSchematicsAgentHealthRead agentID d (.ok client) = .returned .nil d2 ∧
        mapGet d2.attrs key = none := by
  have h : dataSourceIbmSchematicsAgentHealthRead agentID d (.ok client) =
      .returned .nil ⟨agentID d, d.attrs⟩ := by
    simp [dataSourceIbmSchematicsAgentHealthRead, GetAgentDataOptions.SetAgentID, herr, hresp,
      h404, ResourceData.SetId]
  refine ⟨h, ?_⟩
  intro key _ hkey
  exact ⟨_, h, hkey⟩

theorem agentHealthRead_notFound_witness :
    dataSourceIbmSchematicsAgentHealthRead exampleAgentID exampleAgentState (.ok notFoundClient) =
      .returned .nil ⟨exampleAgentID exampleAgentState, exampleAgentState.attrs⟩ ∧
    ∀ key ∈ ["job_id", "updated_at", "updated_by", "agent_version", "status_code",
        "status_message", "log_url"],
      mapGet exampleAgentState.attrs key = none →
      ∃ d2, dataSourceIbmSchematicsAgentHealthRead exampleAgentID exampleAgentState
          (.ok notFoundClient) = .returned .nil d2 ∧
        mapGet d2.attrs key = none :=
  agentHealthRead_notFound exampleAgentID exampleAgentState notFoundClient "agent not found"
    ⟨404, "404 Not Found"⟩ rfl rfl rfl

/-- C5, as the code has it: after a successful response with a health job the
handler returns no error; the resource id is the job id when the job has one and
otherwise stays the id given by `DataSourceIBMSchematicsAgentID`; each of the
seven health attributes holds the response field when that field is present and
the empty string when it is absent; the read has a state exactly when the
resulting id is not empty. -/
theorem agentHealthRead_copies_job (agentID : ResourceData → String) (d : ResourceData)
    (client : SchematicsClient) (agentData : AgentData) (job : AgentDataRecentHealthJob)
    (herr : (client ⟨some (d.GetString "agent_id"), some "detailed"⟩).err = none)
    (hdata : (client ⟨some (d.GetString "agent_id"), some "detailed"⟩).agentData = some agentData)
    (hjob : agentData.RecentHealthJob = some job) :
    ∃ d2, dataSourceIbmSchematicsAgentHealthRead agentID d (.ok client) = .returned .nil d2 ∧
      d2.id = job.JobID.getD (agentID d) ∧
      mapGet d2.attrs "job_id" = some (.str (job.JobID.getD "")) ∧
      mapGet d2.attrs "updated_at" =
        some (.str ((job.UpdatedAt.map (fun t => t.text)).getD "")) ∧
      mapGet d2.attrs "updated_by" = some (.str (job.UpdatedBy.getD "")) ∧
      mapGet d2.attrs "agent_version" = some (.str (agentData.Version.getD "")) ∧
      mapGet d2.attrs "status_code" = some (.str (job.StatusCode.getD "")) ∧
      mapGet d2.attrs "status_message" = some (.str (job.StatusMessage.getD "")) ∧
      mapGet d2.attrs "log_url" = some (.str (job.LogURL.getD "")) ∧
      d2.State = if job.JobID.getD (agentID d) = "" then none else some d2 := by
  refine ⟨_, agentHealthRead_job agentID d client agentData job herr hdata hjob, rfl, ?_⟩
  simp [agentHealthAttrs, mapGet_mapSet, ResourceData.State]

theorem agentHealthRead_copies_job_witness :
    ∃ d2, dataSourceIbmSchematicsAgentHealthRead exampleAgentID exampleAgentState
        (.ok (healthClient exampleJob)) = .returned .nil d2 ∧
      d2.id = exampleJob.JobID.getD (exampleAgentID exampleAgentState) ∧
      mapGet d2.attrs "job_id" = some (.str (exampleJob.JobID.getD "")) ∧
      mapGet d2.attrs "updated_at" =
        some (.str ((exampleJob.UpdatedAt.map (fun t => t.text)).getD "")) ∧
      mapGet d2.attrs "updated_by" = some (.str (exampleJob.UpdatedBy.getD "")) ∧
      mapGet d2.attrs "agent_version" = some (.str ((some "1.0.0").getD "")) ∧
      mapGet d2.attrs "status_code" = some (.str (exampleJob.StatusCode.getD "")) ∧
      mapGet d2.attrs "status_message" = some (.str (exampleJob.StatusMessage.getD "")) ∧
      mapGet d2.attrs "log_url" = some (.str (exampleJob.LogURL.getD "")) ∧
      d2.State =
        if exampleJob.JobID.getD (exampleAgentID exampleAgentState) = "" then none else some d2 :=
  agentHealthRead_copies_job exampleAgentID exampleAgentState (healthClient exampleJob)
    ⟨some "1.0.0", some exampleJob⟩ exampleJob rfl rfl rfl

/-- C5, counterexample to the claim as stated: a successful response whose health
job carries no job id, no update time, no status message and no log URL leaves
the resource id at the value of `DataSourceIBMSchematicsAgentID`, which is not
the job id of the record, and stores each absent field under its key as the
empty string instead of omitting it. -/
theorem agentHealthRead_id_without_job_id :
    dataSourceIbmSchematicsAgentHealthRead exampleAgentID exampleAgentState
        (.ok (healthClient jobWithoutID)) =
      .returned .nil ⟨"agent:agent-1", [("agent_id", .str "agent-1"), ("job_id", .str ""),
        ("updated_at", .str ""), ("updated_by", .str "user@example.com"),
        ("agent_version", .str "1.0.0"), ("status_code", .str "success"),
        ("status_message", .str ""), ("log_url", .str "")]⟩ ∧
    jobWithoutID.JobID = none ∧ jobWithoutID.UpdatedAt = none ∧
    jobWithoutID.StatusMessage = none ∧ jobWithoutID.LogURL = none := by
  decide

/-- A present but empty job id becomes the resource id, so the read ends with
resource data that has no state. -/
theorem agentHealthRead_empty_job_id :
    dataSourceIbmSchematicsAgentHealthRead exampleAgentID exampleAgentState
        (.ok (healthClient jobWithEmptyID)) =
      .returned .nil ⟨"", [("agent_id", .str "agent-1"), ("job_id", .str ""),
        ("updated_at", .str ""), ("updated_by", .str "user@example.com"),
        ("agent_version", .str "1.0.0"), ("status_code", .str "success"),
        ("status_message", .str ""), ("log_url", .str "")]⟩ ∧
    ResourceData.State ⟨"", [("agent_id", .str "agent-1"), ("job_id", .str ""),
        ("updated_at", .str ""), ("updated_by", .str "user@example.com"),
        ("agent_version", .str "1.0.0"), ("status_code", .str "success"),
        ("status_message", .str ""), ("log_url", .str "")]⟩ = none := by
  decide

/-- C6: after a failed `GetAgentData` call the handler returns an error
diagnostic with the resource data untouched exactly when the response is nil or
its status code is not 404, and it returns without error exactly in the 404
case. -/
theorem agentHealthRead_error_iff (agentID : ResourceData → String) (d : ResourceData)
    (client : SchematicsClient) (err : String)
    (herr : (client ⟨some (d.GetString "agent_id"), some "detailed"⟩).err = some err) :
    ((∃ diags, diags.HasError = true ∧
        dataSourceIbmSchematicsAgentHealthRead agentID d (.ok client) = .returned diags d) ↔
      ((client ⟨some (d.GetString "agent_id"), some "detailed"⟩).response = none ∨
        ∃ r, (client ⟨some (d.GetString "agent_id"), some "detailed"⟩).response = some r ∧
          r.StatusCode ≠ 404)) ∧
    ((∃ d2, dataSourceIbmSchematicsAgentHealthRead agentID d (.ok client) = .returned .nil d2) ↔
      ∃ r, (client ⟨some (d.GetString "agent_id"), some "detailed"⟩).response = some r ∧
        r.StatusCode = 404) := by
  cases hr : (client ⟨some (d.GetString "agent_id"), some "detailed"⟩).response with
  | none =>
    simp [dataSourceIbmSchematicsAgentHealthRead, GetAgentDataOptions.SetAgentID, herr, hr,
      Diagnostics.HasError]
  | some r =>
    by_cases h : r.StatusCode = 404
    · have e : dataSourceIbmSchematicsAgentHealthRead agentID d (.ok client) =
          .returned .nil (d.SetId (agentID d)) := by
        simp [dataSourceIbmSchematicsAgentHealthRead, GetAgentDataOptions.SetAgentID, herr, hr, h]
      rw [e]
      constructor
      · constructor
        · rintro ⟨diags, hd, heq⟩
          simp only [ReadResult.returned.injEq] at heq
          rw [← heq.1] at hd
          simp [Diagnostics.HasError] at hd
        · rintro (h0 | ⟨r2, h1, h2⟩)
          · simp at h0
          · simp only [Option.some.injEq] at h1
            subst h1
            exact absurd h h2
      · simp [h]
    · simp [dataSourceIbmSchematicsAgentHealthRead, GetAgentDataOptions.SetAgentID, herr, hr, h,
        Diagnostics.HasError]

theorem agentHealthRead_error_iff_witness :
    ((∃ diags, diags.HasError = true ∧
        dataSourceIbmSchematicsAgentHealthRead exampleAgentID exampleAgentState
          (.ok serverErrorClient) = .returned diags exampleAgentState) ↔
      ((serverErrorClient ⟨some (exampleAgentState.GetString "agent_id"), some "detailed"⟩).response
          = none ∨
        ∃ r, (serverErrorClient
            ⟨some (exampleAgentState.GetString "agent_id"), some "detailed"⟩).response = some r ∧
          r.StatusCode ≠ 404)) ∧
    ((∃ d2, dataSourceIbmSchematicsAgentHealthRead exampleAgentID exampleAgentState
          (.ok serverErrorClient) = .returned .nil d2) ↔
      ∃ r, (serverErrorClient
          ⟨some (exampleAgentState.GetString "agent_id"), some "detailed"⟩).response = some r ∧
        r.StatusCode = 404) :=
  agentHealthRead_error_iff exampleAgentID exampleAgentState serverErrorClient "internal error" rfl

/-! ## The pagination loop -/

theorem wrapInt64_eq (x : Int) (h1 : -9223372036854775808 ≤ x) (h2 : x ≤ 9223372036854775807) :
    wrapInt64 x = x := by
  unfold wrapInt64
  omega

theorem wrapInt64_le (x : Int) : wrapInt64 x ≤ maxInt64 := by
  unfold wrapInt64 maxInt64
  omega

theorem listTopicsOptions_SetOffset (d : ResourceData) (off0 : Option Int) (off : Int) :
    ({ listTopicsOptions d 100 with Offset := off0 } : ListTopicsOptions).SetOffset off =
      expectedRequest d off := by
  by_cases h : d.GetString "search_key" = "" <;>
    simp [listTopicsOptions, expectedRequest, ResourceData.GetOkString, h,
      ListTopicsOptions.SetOffset, ListTopicsOptions.SetLimit, ListTopicsOptions.SetSearch,
      ListTopicsOptions.SetInstanceID, ListTopicsOptions.empty]

theorem listTopicsLoop_stable (enClient : EnClient) (T : Nat) (hT : T < 9223372036854775800)
    (base : ListTopicsOptions) (page : Nat → List TopicsListItem)
    (H : ∀ i, i ≤ T / 100 →
      enClient i (base.SetOffset (100 * (i : Int))) = .ok ⟨some (T : Int), page i⟩) :
    ∀ (m k fuel : Nat) (off0 : Option Int) (acc : List TopicsListItem),
      k + m = T / 100 → m < fuel →
      listTopicsLoop enClient 100 fuel k { base with Offset := off0 } (100 * (k : Int)) acc =
        (.done ⟨some (T : Int), page (T / 100)⟩
          (acc ++ ((List.range' k (m + 1)).map page).flatten),
         (List.range' k (m + 1)).map (fun (i : Nat) => base.SetOffset (100 * (i : Int)))) := by
  intro m
  induction m with
  | zero =>
    intro k fuel off0 acc hk hf
    obtain ⟨fuel, rfl⟩ : ∃ f, fuel = f + 1 := ⟨fuel - 1, by omega⟩
    have hk2 : k = T / 100 := by omega
    have hreq : ({ base with Offset := off0 } : ListTopicsOptions).SetOffset (100 * (k : Int)) =
        base.SetOffset (100 * (k : Int)) := rfl
    have hw : wrapInt64 (100 * (k : Int) + 100) = 100 * (k : Int) + 100 :=
      wrapInt64_eq _ (by omega) (by omega)
    have hgt : (100 * (k : Int) + 100) > (T : Int) := by omega
    simp only [listTopicsLoop, hreq, H k (by omega), hw, hgt, if_true]
    rw [← hk2]
    simp
  | succ m ih =>
    intro k fuel off0 acc hk hf
    obtain ⟨fuel, rfl⟩ : ∃ f, fuel = f + 1 := ⟨fuel - 1, by omega⟩
    have hreq : ({ base with Offset := off0 } : ListTopicsOptions).SetOffset (100 * (k : Int)) =
        base.SetOffset (100 * (k : Int)) := rfl
    have hw : wrapInt64 (100 * (k : Int) + 100) = 100 * (k : Int) + 100 :=
      wrapInt64_eq _ (by omega) (by omega)
    have hle : ¬ (100 * (k : Int) + 100) > (T : Int) := by omega
    have hnext : (100 * (k : Int) + 100) = 100 * ((k + 1 : Nat) : Int) := by push_cast; ring
    have hrec := ih (k + 1) fuel (some (100 * (k : Int))) (acc ++ page k) (by omega) (by omega)
    have hopt : base.SetOffset (100 * (k : Int)) =
        ({ base with Offset := some (100 * (k : Int)) } : ListTopicsOptions) := rfl
    simp only [listTopicsLoop, hreq, H k (by omega), hw, hle, if_false]
    rw [hnext, hopt, hrec]
    simp [List.range'_succ k (m + 1), ListTopicsOptions.SetOffset]

theorem listTopicsLoop_never_stops (enClient : EnClient) (limit : Int)
    (h : ∀ n o, ∃ ts, enClient n o = .ok ⟨some maxInt64, ts⟩) :
    ∀ (fuel n : Nat) (o : ListTopicsOptions) (off : Int) (acc : List TopicsListItem),
      (listTopicsLoop enClient limit fuel n o off acc).1 = .outOfFuel ∧
      (listTopicsLoop enClient limit fuel n o off acc).2.length = fuel := by
  intro fuel
  induction fuel with
  | zero =>
    intro n o off acc
    simp [listTopicsLoop]
  | succ fuel ih =>
    intro n o off acc
    obtain ⟨ts, hts⟩ := h n (o.SetOffset off)
    have hle : ¬ wrapInt64 (off + limit) > maxInt64 := not_lt.mpr (wrapInt64_le _)
    have hrec := ih (n + 1) (o.SetOffset off) (wrapInt64 (off + limit)) (acc ++ ts)
    simp only [listTopicsLoop, hts, hle, if_false]
    exact ⟨hrec.1, by simp [hrec.2]⟩

theorem listTopicsLoop_failed_last (enClient : EnClient) (limit : Int) :
    ∀ (fuel n : Nat) (o : ListTopicsOptions) (off : Int) (acc : List TopicsListItem)
      (i : Nat) (req : ListTopicsOptions) (e : String),
      (listTopicsLoop enClient limit fuel n o off acc).2[i]? = some req →
      enClient (n + i) req = .error e →
      (listTopicsLoop enClient limit fuel n o off acc).1 = .failed e ∧
      (listTopicsLoop enClient limit fuel n o off acc).2.length = i + 1 := by
  intro fuel
  induction fuel with
  | zero =>
    intro n o off acc i req e hreq _
    simp [listTopicsLoop] at hreq
  | succ fuel ih =>
    intro n o off acc i req e hreq herr
    cases hc : enClient n (o.SetOffset off) with
    | error e2 =>
      simp only [listTopicsLoop, hc] at hreq ⊢
      cases i with
      | zero =>
        simp only [List.getElem?_cons_zero, Option.some.injEq] at hreq
        subst hreq
        rw [Nat.add_zero, hc] at herr
        simp only [Except.error.injEq] at herr
        subst herr
        simp
      | succ j => simp at hreq
    | ok result =>
      cases ht : result.TotalCount with
      | none =>
        simp only [listTopicsLoop, hc, ht] at hreq ⊢
        cases i with
        | zero =>
          simp only [List.getElem?_cons_zero, Option.some.injEq] at hreq
          subst hreq
          rw [Nat.add_zero, hc] at herr
          simp at herr
        | succ j => simp at hreq
      | some totalCount =>
        by_cases hb : wrapInt64 (off + limit) > totalCount
        · simp only [listTopicsLoop, hc, ht, hb, if_true] at hreq ⊢
          cases i with
          | zero =>
            simp only [List.getElem?_cons_zero, Option.some.injEq] at hreq
            subst hreq
            rw [Nat.add_zero, hc] at herr
            simp at herr
          | succ j => simp at hreq
        · simp only [listTopicsLoop, hc, ht, hb, if_false] at hreq ⊢
          cases i with
          | zero =>
            simp only [List.getElem?_cons_zero, Option.some.injEq] at hreq
            subst hreq
            rw [Nat.add_zero, hc] at herr
            simp at herr
          | succ j =>
            simp only [List.getElem?_cons_succ] at hreq
            have herr2 : enClient (n + 1 + j) req = .error e := by
              rw [show n + 1 + j = n + (j + 1) by omega]
              exact herr
            have hrec := ih (n + 1) (o.SetOffset off) (wrapInt64 (off + limit))
              (acc ++ result.Topics) j req e hreq herr2
            exact ⟨hrec.1, by simp [hrec.2]⟩

theorem topicsRead_of_done (fuel : Nat) (d : ResourceData) (enClient : EnClient)
    (result : TopicList) (finalList : List TopicsListItem) (requests : List ListTopicsOptions)
    (h : listTopicsLoop enClient 100 fuel 0 (listTopicsOptions d 100) 0 [] =
      (.done result finalList, requests)) :
    dataSourceIBMEnTopicsRead fuel d (.ok enClient) =
      (.returned .nil (expectedTopicsState d (IntValue result.TotalCount) finalList),
        requests) := by
  have h1 : ∀ (x : ResourceData) (v : Int),
      x.Set DataSourceIBMEnTopics "total_count" (some (.int v)) =
        .ok ⟨x.id, mapSet x.attrs "total_count" (.int v)⟩ :=
    fun x v => Set_ok _ x _ _ ValueType.TypeInt rfl (by
      intro a ha
      simp only [Option.some.injEq] at ha
      subst ha
      rfl)
  have h2 : ∀ (x : ResourceData) (v : List TopicsMap),
      x.Set DataSourceIBMEnTopics "topics" (some (.maps v)) =
        .ok ⟨x.id, mapSet x.attrs "topics" (.maps v)⟩ :=
    fun x v => Set_ok _ x _ _ ValueType.TypeList rfl (by
      intro a ha
      simp only [Option.some.injEq] at ha
      subst ha
      rfl)
  simp only [dataSourceIBMEnTopicsRead, h, h1, h2]
  simp [expectedTopicsState, ResourceData.SetId, enTopicListFlatten_eq_map]

theorem topicsRead_of_failed (fuel : Nat) (d : ResourceData) (enClient : EnClient)
    (e : String)
    (h : (listTopicsLoop enClient 100 fuel 0 (listTopicsOptions d 100) 0 []).1 = .failed e) :
    dataSourceIBMEnTopicsRead fuel d (.ok enClient) =
      (.returned (.TerraformErrorf e ("ListTopicsWithContext failed: " ++ e)
          "(Data) ibm_en_topics" "list") d,
        (listTopicsLoop enClient 100 fuel 0 (listTopicsOptions d 100) 0 []).2) := by
  rcases hl : listTopicsLoop enClient 100 fuel 0 (listTopicsOptions d 100) 0 [] with ⟨out, reqs⟩
  rw [hl] at h
  simp only at h
  subst h
  simp only [dataSourceIBMEnTopicsRead, hl]

theorem topicsRead_of_outOfFuel (fuel : Nat) (d : ResourceData) (enClient : EnClient)
    (h : (listTopicsLoop enClient 100 fuel 0 (listTopicsOptions d 100) 0 []).1 = .outOfFuel) :
    dataSourceIBMEnTopicsRead fuel d (.ok enClient) =
      (.outOfFuel, (listTopicsLoop enClient 100 fuel 0 (listTopicsOptions d 100) 0 []).2) := by
  rcases hl : listTopicsLoop enClient 100 fuel 0 (listTopicsOptions d 100) 0 [] with ⟨out, reqs⟩
  rw [hl] at h
  simp only at h
  subst h
  simp only [dataSourceIBMEnTopicsRead, hl]

theorem topicsRead_requests (fuel : Nat) (d : ResourceData) (enClient : EnClient) :
    (dataSourceIBMEnTopicsRead fuel d (.ok enClient)).2 =
      (listTopicsLoop enClient 100 fuel 0 (listTopicsOptions d 100) 0 []).2 := by
  rcases hl : listTopicsLoop enClient 100 fuel 0 (listTopicsOptions d 100) 0 [] with ⟨out, reqs⟩
  cases out with
  | failed e => rw [topicsRead_of_failed fuel d enClient e (by rw [hl]), hl]
  | done result finalList => rw [topicsRead_of_done fuel d enClient result finalList reqs hl]
  | nilDeref => simp [dataSourceIBMEnTopicsRead, hl]
  | outOfFuel => rw [topicsRead_of_outOfFuel fuel d enClient (by rw [hl]), hl]

theorem pages_flatten (L : List TopicsListItem) :
    ∀ (m k : Nat), k + m = L.length / 100 →
      ((List.range' k (m + 1)).map (fun i => (L.drop (100 * i)).take 100)).flatten =
        L.drop (100 * k) := by
  intro m
  induction m with
  | zero =>
    intro k hk
    simp only [List.range'_succ, List.range'_zero, List.map_cons, List.map_nil,
      List.flatten_cons, List.flatten_nil, List.append_nil]
    apply List.take_of_length_le
    simp only [List.length_drop]
    omega
  | succ m ih =>
    intro k hk
    rw [List.range'_succ, List.map_cons, List.flatten_cons, ih (k + 1) (by omega)]
    have : 100 * (k + 1) = 100 * k + 100 := by ring
    rw [this, ← List.drop_drop, List.take_append_drop]

theorem listTopicsOptions_SetOffset_start (d : ResourceData) (off : Int) :
    (listTopicsOptions d 100).SetOffset off = expectedRequest d off :=
  listTopicsOptions_SetOffset d (listTopicsOptions d 100).Offset off

theorem listTopicsLoop_stable_start (d : ResourceData) (enClient : EnClient) (T fuel : Nat)
    (hT : T < 9223372036854775800) (page : Nat → List TopicsListItem)
    (H : ∀ i, i ≤ T / 100 →
      enClient i (expectedRequest d (100 * (i : Int))) = .ok ⟨some (T : Int), page i⟩)
    (hfuel : T / 100 < fuel) :
    listTopicsLoop enClient 100 fuel 0 (listTopicsOptions d 100) 0 [] =
      (.done ⟨some (T : Int), page (T / 100)⟩
        (((List.range' 0 (T / 100 + 1)).map page).flatten),
       (List.range (T / 100 + 1)).map (fun (i : Nat) => expectedRequest d (100 * (i : Int)))) := by
  have H2 : ∀ i, i ≤ T / 100 →
      enClient i ((listTopicsOptions d 100).SetOffset (100 * (i : Int))) =
        .ok ⟨some (T : Int), page i⟩ := by
    intro i hi
    rw [listTopicsOptions_SetOffset_start]
    exact H i hi
  have h := listTopicsLoop_stable enClient T hT (listTopicsOptions d 100) page H2 (T / 100) 0 fuel
    (listTopicsOptions d 100).Offset [] (by omega) hfuel
  have hz : (100 : Int) * ((0 : Nat) : Int) = 0 := by norm_num
  rw [hz] at h
  have hmap : (fun (i : Nat) => (listTopicsOptions d 100).SetOffset (100 * (i : Int))) =
      (fun (i : Nat) => expectedRequest d (100 * (i : Int))) := by
    funext i
    exact listTopicsOptions_SetOffset_start d _
  rw [hmap, List.nil_append, ← List.range_eq_range'] at h
  rw [← List.range_eq_range']
  exact h

/-- C1, as the code has it: when every response succeeds and reports the same
total count `T` with `0 ≤ T < 9223372036854775800` (so that no offset leaves the
`int64` range), the handler returns without error after exactly `T / 100 + 1`
requests, request `i` carrying limit 100 and offset `100 * i`; the advanced
offset `100 * (i + 1)` exceeds `T` for the last request and for none before. -/
theorem topicsRead_request_count (d : ResourceData) (enClient : EnClient) (T fuel : Nat)
    (hT : T < 9223372036854775800)
    (hsvc : ∀ n o, ∃ ts, enClient n o = .ok ⟨some (T : Int), ts⟩)
    (hfuel : T / 100 < fuel) :
    (∃ d2, (dataSourceIBMEnTopicsRead fuel d (.ok enClient)).1 = .returned .nil d2) ∧
    (dataSourceIBMEnTopicsRead fuel d (.ok enClient)).2 =
      (List.range (T / 100 + 1)).map (fun (i : Nat) => expectedRequest d (100 * (i : Int))) ∧
    (dataSourceIBMEnTopicsRead fuel d (.ok enClient)).2.length = T / 100 + 1 ∧
    (∀ i : Nat, i < T / 100 → ¬ (100 * ((i : Int) + 1) > (T : Int))) ∧
    100 * (((T / 100 : Nat) : Int) + 1) > (T : Int) := by
  have H : ∀ i, i ≤ T / 100 →
      enClient i (expectedRequest d (100 * (i : Int))) =
        .ok ⟨some (T : Int),
          (fun j => match enClient j (expectedRequest d (100 * (j : Int))) with
            | .ok r => r.Topics
            | .error _ => []) i⟩ := by
    intro i _
    obtain ⟨ts, hts⟩ := hsvc i (expectedRequest d (100 * (i : Int)))
    simp only [hts]
  have hloop := listTopicsLoop_stable_start d enClient T fuel hT _ H hfuel
  have hread := topicsRead_of_done fuel d enClient _ _ _ hloop
  rw [hread]
  refine ⟨⟨_, rfl⟩, rfl, by simp, ?_, ?_⟩
  · intro i hi
    omega
  · omega

theorem topicsRead_request_count_witness :
    (∃ d2, (dataSourceIBMEnTopicsRead 3 exampleTopicsState
        (.ok (pagedService (List.replicate 250 (exampleTopic "t"))))).1 = .returned .nil d2) ∧
    (dataSourceIBMEnTopicsRead 3 exampleTopicsState
        (.ok (pagedService (List.replicate 250 (exampleTopic "t"))))).2 =
      (List.range (250 / 100 + 1)).map
        (fun (i : Nat) => expectedRequest exampleTopicsState (100 * (i : Int))) ∧
    (dataSourceIBMEnTopicsRead 3 exampleTopicsState
        (.ok (pagedService (List.replicate 250 (exampleTopic "t"))))).2.length = 250 / 100 + 1 ∧
    (∀ i : Nat, i < 250 / 100 → ¬ (100 * ((i : Int) + 1) > ((250 : Nat) : Int))) ∧
    100 * (((250 / 100 : Nat) : Int) + 1) > ((250 : Nat) : Int) :=
  topicsRead_request_count exampleTopicsState
    (pagedService (List.replicate 250 (exampleTopic "t"))) 250 3 (by decide)
    (fun _ o => ⟨((List.replicate 250 (exampleTopic "t")).drop (o.Offset.getD 0).toNat).take 100,
      by simp only [pagedService, List.length_replicate]⟩) (by decide)

/-- C1, counterexample to the claim as stated: against a service that reports the
total count `9223372036854775807` on every successful response, the loop is
still running after any number of requests, so it issues more than
`9223372036854775807 / 100 + 1` of them and never stops. -/
theorem topicsRead_max_total_never_stops :
    (∀ fuel, (dataSourceIBMEnTopicsRead fuel exampleTopicsState (.ok maxTotalClient)).1 =
        .outOfFuel ∧
      (dataSourceIBMEnTopicsRead fuel exampleTopicsState (.ok maxTotalClient)).2.length = fuel) ∧
    9223372036854775807 / 100 + 1 <
      (dataSourceIBMEnTopicsRead 92233720368547760 exampleTopicsState
        (.ok maxTotalClient)).2.length := by
  have h : ∀ fuel, (dataSourceIBMEnTopicsRead fuel exampleTopicsState (.ok maxTotalClient)).1 =
        .outOfFuel ∧
      (dataSourceIBMEnTopicsRead fuel exampleTopicsState (.ok maxTotalClient)).2.length = fuel := by
    intro fuel
    have hl := listTopicsLoop_never_stops maxTotalClient 100 (fun _ _ => ⟨[], rfl⟩) fuel 0
      (listTopicsOptions exampleTopicsState 100) 0 []
    rw [topicsRead_of_outOfFuel fuel exampleTopicsState maxTotalClient hl.1]
    exact ⟨rfl, hl.2⟩
  refine ⟨h, ?_⟩
  rw [(h 92233720368547760).2]
  norm_num

/-- C2, as the code has it: when every request succeeds and the service holds a
fixed list `L` of fewer than `9223372036854775800` records, reporting its length
as total count and serving at each offset the records from that offset on (100 at
most), the loop accumulates exactly `L`, in order, and the handler returns without
error with `total_count` set to the length of `L` and `topics` set to the
flattened records of `L`. -/
theorem topicsRead_complete (d : ResourceData) (enClient : EnClient)
    (L : List TopicsListItem) (fuel : Nat)
    (hT : L.length < 9223372036854775800)
    (hsvc : ∀ n o off, o.Offset = some off → 0 ≤ off →
      enClient n o = .ok ⟨some (L.length : Int), (L.drop off.toNat).take 100⟩)
    (hfuel : L.length / 100 < fuel) :
    (∃ r, (listTopicsLoop enClient 100 fuel 0 (listTopicsOptions d 100) 0 []).1 = .done r L) ∧
    dataSourceIBMEnTopicsRead fuel d (.ok enClient) =
      (.returned .nil (expectedTopicsState d (L.length : Int) L),
       (List.range (L.length / 100 + 1)).map
         (fun (i : Nat) => expectedRequest d (100 * (i : Int)))) ∧
    mapGet (expectedTopicsState d (L.length : Int) L).attrs "total_count" =
      some (.int (L.length : Int)) ∧
    mapGet (expectedTopicsState d (L.length : Int) L).attrs "topics" =
      some (.maps (enTopicListFlatten L)) ∧
    (enTopicListFlatten L).length = L.length := by
  have H : ∀ i, i ≤ L.length / 100 →
      enClient i (expectedRequest d (100 * (i : Int))) =
        .ok ⟨some (L.length : Int), (fun j => (L.drop (100 * j)).take 100) i⟩ := by
    intro i _
    have h := hsvc i (expectedRequest d (100 * (i : Int))) (100 * (i : Int)) rfl (by omega)
    have hn : (100 * (i : Int)).toNat = 100 * i := by omega
    rw [hn] at h
    exact h
  have hloop := listTopicsLoop_stable_start d enClient L.length fuel hT _ H hfuel
  have hflat := pages_flatten L (L.length / 100) 0 (by omega)
  rw [hflat, Nat.mul_zero, List.drop_zero] at hloop
  have hread := topicsRead_of_done fuel d enClient _ _ _ hloop
  refine ⟨⟨_, by rw [hloop]⟩, hread, ?_, ?_, ?_⟩
  · simp [expectedTopicsState, mapGet_mapSet]
  · simp [expectedTopicsState, mapGet_mapSet, enTopicListFlatten_eq_map]
  · simp [enTopicListFlatten_eq_map]

theorem topicsRead_complete_witness :
    (∃ r, (listTopicsLoop (pagedService [exampleTopic "a", exampleTopic "b"]) 100 1 0
        (listTopicsOptions exampleTopicsState 100) 0 []).1 =
          .done r [exampleTopic "a", exampleTopic "b"]) ∧
    dataSourceIBMEnTopicsRead 1 exampleTopicsState
        (.ok (pagedService [exampleTopic "a", exampleTopic "b"])) =
      (.returned .nil (expectedTopicsState exampleTopicsState
          ([exampleTopic "a", exampleTopic "b"].length : Int)
          [exampleTopic "a", exampleTopic "b"]),
       (List.range ([exampleTopic "a", exampleTopic "b"].length / 100 + 1)).map
         (fun (i : Nat) => expectedRequest exampleTopicsState (100 * (i : Int)))) ∧
    mapGet (expectedTopicsState exampleTopicsState
        ([exampleTopic "a", exampleTopic "b"].length : Int)
        [exampleTopic "a", exampleTopic "b"]).attrs "total_count" =
      some (.int ([exampleTopic "a", exampleTopic "b"].length : Int)) ∧
    mapGet (expectedTopicsState exampleTopicsState
        ([exampleTopic "a", exampleTopic "b"].length : Int)
        [exampleTopic "a", exampleTopic "b"]).attrs "topics" =
      some (.maps (enTopicListFlatten [exampleTopic "a", exampleTopic "b"])) ∧
    (enTopicListFlatten [exampleTopic "a", exampleTopic "b"]).length =
      [exampleTopic "a", exampleTopic "b"].length :=
  topicsRead_complete exampleTopicsState (pagedService [exampleTopic "a", exampleTopic "b"])
    [exampleTopic "a", exampleTopic "b"] 1 (by decide)
    (fun _ o off ho _ => by simp [pagedService, ho]) (by decide)

/-- C2, counterexample to the claim as stated: a service holding a list of
`9223372036854775807` records, serving its pages and reporting that total count
on every response, keeps the loop running after any number of requests, so no
list is ever returned. -/
theorem topicsRead_huge_list_never_stops :
    (List.replicate 9223372036854775807 (exampleTopic "t")).length = 9223372036854775807 ∧
    ∀ fuel, (dataSourceIBMEnTopicsRead fuel exampleTopicsState
        (.ok (pagedService (List.replicate 9223372036854775807 (exampleTopic "t"))))).1 =
          .outOfFuel ∧
      (dataSourceIBMEnTopicsRead fuel exampleTopicsState
        (.ok (pagedService (List.replicate 9223372036854775807 (exampleTopic "t"))))).2.length =
          fuel := by
  refine ⟨List.length_replicate _ _, ?_⟩
  intro fuel
  have hsvc : ∀ n o, ∃ ts,
      pagedService (List.replicate 9223372036854775807 (exampleTopic "t")) n o =
        .ok ⟨some maxInt64, ts⟩ := by
    intro n o
    refine ⟨((List.replicate 9223372036854775807 (exampleTopic "t")).drop
      (o.Offset.getD 0).toNat).take 100, ?_⟩
    simp only [pagedService, List.length_replicate, maxInt64]
    rfl
  have hl := listTopicsLoop_never_stops _ 100 hsvc fuel 0
    (listTopicsOptions exampleTopicsState 100) 0 []
  rw [topicsRead_of_outOfFuel fuel exampleTopicsState _ hl.1]
  exact ⟨rfl, hl.2⟩

/-- C3: whenever a `ListTopics` request the handler issued fails, that request is
the last one issued, the handler returns the error diagnostic of that failure, and
the resource data is returned exactly as it was passed in. -/
theorem topicsRead_request_failure (fuel : Nat) (d : ResourceData) (enClient : EnClient)
    (i : Nat) (req : ListTopicsOptions) (e : String)
    (hreq : (dataSourceIBMEnTopicsRead fuel d (.ok enClient)).2[i]? = some req)
    (herr : enClient i req = .error e) :
    (dataSourceIBMEnTopicsRead fuel d (.ok enClient)).1 =
      .returned (.TerraformErrorf e ("ListTopicsWithContext failed: " ++ e)
        "(Data) ibm_en_topics" "list") d ∧
    (Diagnostics.TerraformErrorf e ("ListTopicsWithContext failed: " ++ e)
        "(Data) ibm_en_topics" "list").HasError = true ∧
    (dataSourceIBMEnTopicsRead fuel d (.ok enClient)).2.length = i + 1 := by
  rw [topicsRead_requests] at hreq
  have herr2 : enClient (0 + i) req = .error e := by
    rw [Nat.zero_add]
    exact herr
  have h := listTopicsLoop_failed_last enClient 100 fuel 0 (listTopicsOptions d 100) 0 [] i req e
    hreq herr2
  rw [topicsRead_of_failed fuel d enClient e h.1]
  exact ⟨rfl, rfl, h.2⟩

theorem topicsRead_request_failure_witness :
    (dataSourceIBMEnTopicsRead 5 exampleTopicsState (.ok failingSecondClient)).1 =
      .returned (.TerraformErrorf "connection reset"
        ("ListTopicsWithContext failed: " ++ "connection reset")
        "(Data) ibm_en_topics" "list") exampleTopicsState ∧
    (Diagnostics.TerraformErrorf "connection reset"
        ("ListTopicsWithContext failed: " ++ "connection reset")
        "(Data) ibm_en_topics" "list").HasError = true ∧
    (dataSourceIBMEnTopicsRead 5 exampleTopicsState (.ok failingSecondClient)).2.length = 1 + 1 :=
  topicsRead_request_failure 5 exampleTopicsState failingSecondClient 1
    (expectedRequest exampleTopicsState 100) "connection reset" (by decide) rfl

/-- C9, as the code has it: when the first response succeeds and reports a total
count of 0, exactly one request is made, at offset 0, and the resulting list of
topics is the list that response carried, so it is empty when the response
carries no topic. -/
theorem topicsRead_zero_total (d : ResourceData) (enClient : EnClient)
    (ts : List TopicsListItem) (fuel : Nat)
    (h : enClient 0 (expectedRequest d 0) = .ok ⟨some 0, ts⟩) :
    dataSourceIBMEnTopicsRead (fuel + 1) d (.ok enClient) =
      (.returned .nil (expectedTopicsState d 0 ts), [expectedRequest d 0]) ∧
    mapGet (expectedTopicsState d 0 ts).attrs "topics" = some (.maps (enTopicListFlatten ts)) ∧
    (ts = [] → mapGet (expectedTopicsState d 0 ts).attrs "topics" = some (.maps [])) := by
  have hloop : listTopicsLoop enClient 100 (fuel + 1) 0 (listTopicsOptions d 100) 0 [] =
      (.done ⟨some 0, ts⟩ ts, [expectedRequest d 0]) := by
    have hw : wrapInt64 (0 + 100) = 100 := by decide
    simp only [listTopicsLoop, listTopicsOptions_SetOffset_start, h, hw]
    simp
  have hread := topicsRead_of_done (fuel + 1) d enClient _ _ _ hloop
  refine ⟨hread, ?_, ?_⟩
  · simp [expectedTopicsState, mapGet_mapSet, enTopicListFlatten_eq_map]
  · intro hts
    simp [expectedTopicsState, mapGet_mapSet, hts]

theorem topicsRead_zero_total_witness :
    dataSourceIBMEnTopicsRead (0 + 1) exampleTopicsState
        (.ok (pagedService [])) =
      (.returned .nil (expectedTopicsState exampleTopicsState 0 []),
        [expectedRequest exampleTopicsState 0]) ∧
    mapGet (expectedTopicsState exampleTopicsState 0 []).attrs "topics" =
      some (.maps (enTopicListFlatten [])) ∧
    (([] : List TopicsListItem) = [] →
      mapGet (expectedTopicsState exampleTopicsState 0 []).attrs "topics" = some (.maps [])) :=
  topicsRead_zero_total exampleTopicsState (pagedService []) [] 0 rfl

/-- C9, counterexample to the claim as stated: a first response that reports a
total count of 0 and carries one topic gives one request and a list of topics
with one element. -/
theorem topicsRead_zero_total_nonempty :
    dataSourceIBMEnTopicsRead 1 exampleTopicsState (.ok zeroTotalClient) =
      (.returned .nil ⟨"topics_abc", [("instance_guid", .str "abc"), ("total_count", .int 0),
        ("topics", .maps [[("id", .str "t0"), ("name", .str "topic"), ("source_count", .int 1),
          ("sources_names", .strs ["src"])]])]⟩,
       [⟨some "abc", some 100, some 0, none⟩]) ∧
    zeroTotalClient 0 ⟨some "abc", some 100, some 0, none⟩ =
      .ok ⟨some 0, [exampleTopic "t0"]⟩ :=
  ⟨by decide, rfl⟩

/-- C10: the loop has no iteration cap: for every `n` there is a service whose
every response succeeds and against which the loop is still running after any
number of requests, so that more than `n` requests are issued. -/
theorem topicsRead_no_iteration_cap (n : Nat) (d : ResourceData) :
    ∃ enClient : EnClient, (∀ k o, ∃ r, enClient k o = .ok r) ∧
      (∀ fuel, (dataSourceIBMEnTopicsRead fuel d (.ok enClient)).1 = .outOfFuel ∧
        (dataSourceIBMEnTopicsRead fuel d (.ok enClient)).2.length = fuel) ∧
      n < (dataSourceIBMEnTopicsRead (n + 1) d (.ok enClient)).2.length := by
  have h : ∀ fuel, (dataSourceIBMEnTopicsRead fuel d (.ok maxTotalClient)).1 = .outOfFuel ∧
      (dataSourceIBMEnTopicsRead fuel d (.ok maxTotalClient)).2.length = fuel := by
    intro fuel
    have hl := listTopicsLoop_never_stops maxTotalClient 100 (fun _ _ => ⟨[], rfl⟩) fuel 0
      (listTopicsOptions d 100) 0 []
    rw [topicsRead_of_outOfFuel fuel d maxTotalClient hl.1]
    exact ⟨rfl, hl.2⟩
  refine ⟨maxTotalClient, fun _ _ => ⟨_, rfl⟩, h, ?_⟩
  rw [(h (n + 1)).2]
  omega

end TerraformIBM
